import Mathlib

/-!
Shallow embedding of the paged block allocator of this repository
(src/src/scheduler/block_engine.rs) and of the attention input metadata
constructor (src/src/paged_attention/input_metadata.rs), together with
theorems settling the frozen claims about them.

Modelling conventions:
* Rust `usize` values are modelled as `Nat` (no arithmetic here ever nears
  2^64, and every `usize` operation used is `+`, `-` on positives, `==`,
  `<`, `>`).
* `Arc<PhysicalTokenBlock>` is a shared mutable reference into a heap:
  we model it as an index (`BlockRef`) into the engine-wide list
  `BlockEngine.blocks`.  The struct `PhysicalTokenBlock` below models the
  inner `_PhysicalTokenBlock` state that lives behind the per-block mutex;
  the mutex itself (a spin-retry lock around single field accesses on one
  scheduler thread) has no observable effect in the sequential semantics.
* Rust `Vec` keeps its element order; `Vec::push` appends at the end and
  `Vec::pop` removes the last element (`popLast` below).
* `HashMap<SeqID, BlockTable>` (`block_tables`) is modelled as an
  association list with `tablesGet` / `tablesInsert` / `tablesRemove`.
  Iteration order of the sequence map returned by `get_seqs` is modelled
  as the order of the `seqs` list of a `SequenceGroup`.
* Panics (`unwrap` on `None`/empty, `assert!`, explicit `panic!`,
  `unreachable!`) are modelled as `Option.none` results.
-/

/-- Models `LogicalTokenBlock` (block_engine.rs lines 11-16): a fixed
capacity append-only buffer of token ids. -/
structure LogicalTokenBlock where
  tokens : List Nat
  block_id : Nat
  block_size : Nat
  num_tokens : Nat
deriving DecidableEq, Repr

/-- Models `LogicalTokenBlock::new` (lines 19-26): `vec![0].repeat(block_size)`
is a vector of `block_size` zeros. -/
def LogicalTokenBlock.new (block_id block_size : Nat) : LogicalTokenBlock :=
  { tokens := List.replicate block_size 0
    block_id := block_id
    block_size := block_size
    num_tokens := 0 }

/-- Models `LogicalTokenBlock::is_full` (lines 28-30). -/
def LogicalTokenBlock.is_full (b : LogicalTokenBlock) : Bool :=
  b.num_tokens == b.block_size

/-- Models `LogicalTokenBlock::append_token_id` (lines 32-36); the
`assert!(!self.is_full())` panic is the `none` result. -/
def LogicalTokenBlock.append_token_id (b : LogicalTokenBlock) (token : Nat) :
    Option LogicalTokenBlock :=
  if b.is_full then none
  else some { b with
    tokens := b.tokens.set b.num_tokens token
    num_tokens := b.num_tokens + 1 }

/-- Models `LogicalTokenBlock::append_tokens` (lines 38-42): the for loop
appends one token at a time; a panic inside aborts the rest. -/
def LogicalTokenBlock.append_tokens (b : LogicalTokenBlock) :
    List Nat → Option LogicalTokenBlock
  | [] => some b
  | t :: ts =>
    match b.append_token_id t with
    | none => none
    | some b1 => b1.append_tokens ts

/-- Models `_PhysicalTokenBlock` (block_engine.rs lines 45-51), the state
behind each block's mutex: id, size, refcount and the tier tag `is_gpu`.
Equality (and, in Rust, hashing) is componentwise over all four fields,
as produced by `#[derive(Hash, PartialEq, Eq)]`. -/
structure PhysicalTokenBlock where
  block_id : Nat
  block_size : Nat
  refcount : Nat
  is_gpu : Bool
deriving DecidableEq, BEq, Repr

/-- A shared handle (`Arc<PhysicalTokenBlock>`) is an index into the
engine's block heap. -/
abbrev BlockRef := Nat

/-- The per-sequence abstraction the allocator consumes.  Modelled from the
spec: `sequence.rs` is not part of the sources; section 6 (inbound
interface) says a sequence exposes its identifier and how many additional
physical blocks its next token append requires (0 or 1). -/
structure Sequence where
  seq_id : Nat
  blocks_to_add_new_tok : Nat
deriving DecidableEq, Repr

/-- The sequence-group abstraction the allocator consumes.  Modelled from
the spec: section 6 says a group exposes its member sequences keyed by
identifier and the total number of logical blocks required to hold all
current tokens.  The list order stands in for the (unspecified) iteration
order of the Rust `HashMap` returned by `get_seqs`. -/
structure SequenceGroup where
  seqs : List Sequence
  total_logical_token_blocks : Nat
deriving DecidableEq, Repr

/-- The two tiers; picks which `Allocator` field of the engine an
operation touches. -/
inductive Pool where
  | gpu
  | cpu
deriving DecidableEq, Repr

/-- Models `BlockEngine` (lines 201-208) with both `Allocator`s inlined:
`gpu_free` and `cpu_free` are the two allocators' `free_blocks` vectors
(holding references into the shared heap `blocks`), and `block_tables`
is the sequence-id-to-block-table map as an association list. -/
structure BlockEngine where
  block_size : Nat
  num_gpu_blocks : Nat
  num_cpu_blocks : Nat
  blocks : List PhysicalTokenBlock
  gpu_free : List BlockRef
  cpu_free : List BlockRef
  block_tables : List (Nat × List BlockRef)
deriving DecidableEq, Repr

/-- Vec::pop: removes and returns the last element. -/
def popLast (l : List Nat) : Option (List Nat × Nat) :=
  match l.getLast? with
  | none => none
  | some x => some (l.dropLast, x)

/-- HashMap::get on the sequence-id-keyed block-table map. -/
def tablesGet (ts : List (Nat × List BlockRef)) (k : Nat) :
    Option (List BlockRef) :=
  (ts.find? (fun p => p.1 == k)).map (fun p => p.2)

/-- HashMap::insert on the block-table map: replaces the entry when the
key is present, appends otherwise. -/
def tablesInsert (ts : List (Nat × List BlockRef)) (k : Nat)
    (v : List BlockRef) : List (Nat × List BlockRef) :=
  if ts.any (fun p => p.1 == k) then
    ts.map (fun p => if p.1 == k then (k, v) else p)
  else ts ++ [(k, v)]

/-- HashMap::remove on the block-table map. -/
def tablesRemove (ts : List (Nat × List BlockRef)) (k : Nat) :
    List (Nat × List BlockRef) :=
  ts.filter (fun p => !(p.1 == k))

/-- The selected pool's free list. -/
def freeListOf (e : BlockEngine) : Pool → List BlockRef
  | Pool.gpu => e.gpu_free
  | Pool.cpu => e.cpu_free

/-- Replaces the selected pool's free list. -/
def setFreeList (e : BlockEngine) : Pool → List BlockRef → BlockEngine
  | Pool.gpu, l => { e with gpu_free := l }
  | Pool.cpu, l => { e with cpu_free := l }

/-- Models `Allocator::allocate` (lines 109-113): pop a block off the
pool's free list (`unwrap` panics, hence `none`, when it is empty) and
set its refcount to 1. -/
def Allocator.allocate (e : BlockEngine) (p : Pool) :
    Option (BlockEngine × BlockRef) :=
  match popLast (freeListOf e p) with
  | none => none
  | some (rest, r) =>
    match e.blocks[r]? with
    | none => none
    | some b =>
      some (setFreeList { e with blocks := e.blocks.set r { b with refcount := 1 } } p rest, r)

/-- Models `Allocator::free_block` (lines 115-126): a refcount of 0 on
entry is the fatal double-free panic (`none`); otherwise the refcount is
decremented and the block is pushed onto this pool's free list exactly
when the refcount reached 0. -/
def Allocator.free_block (e : BlockEngine) (p : Pool) (r : BlockRef) :
    Option BlockEngine :=
  match e.blocks[r]? with
  | none => none
  | some b =>
    if b.refcount == 0 then none
    else
      let b1 : PhysicalTokenBlock := { b with refcount := b.refcount - 1 }
      let e1 : BlockEngine := { e with blocks := e.blocks.set r b1 }
      if b1.refcount == 0 then some (setFreeList e1 p (freeListOf e1 p ++ [r]))
      else some e1

/-- Current `block_id` field of the block a reference points at (all
references arising in runs are valid; 0 is a dummy for the unreachable
invalid case). -/
def blockIdOf (e : BlockEngine) (r : BlockRef) : Nat :=
  ((e.blocks[r]?).map (fun b => b.block_id)).getD 0

/-- Models `BlockEngine::new` (lines 210-220) with
`Allocator::<GPUAllocator>::new` (lines 129-147) and
`Allocator::<CPUAllocator>::new` (lines 159-177) inlined.  GPU blocks get
heap references `0..num_gpu_blocks`, CPU blocks the following references;
each pool numbers its own `block_id`s from 0.  Faithful to the source,
the CPU allocator also creates its blocks with `is_gpu: true`
(block_engine.rs line 168). -/
def BlockEngine.new (block_size num_gpu_blocks num_cpu_blocks : Nat) :
    BlockEngine :=
  { block_size := block_size
    num_gpu_blocks := num_gpu_blocks
    num_cpu_blocks := num_cpu_blocks
    blocks :=
      (List.range num_gpu_blocks).map
        (fun id => { block_id := id, block_size := block_size, refcount := 0, is_gpu := true })
      ++ (List.range num_cpu_blocks).map
        (fun id => { block_id := id, block_size := block_size, refcount := 0, is_gpu := true })
    gpu_free := List.range num_gpu_blocks
    cpu_free := (List.range num_cpu_blocks).map (fun i => num_gpu_blocks + i)
    block_tables := [] }

/-- Models `AllocStatus` (lines 189-193). -/
inductive AllocStatus where
  | Ok
  | Later
  | Impossible
deriving DecidableEq, Repr

/-- Models `BlockEngine::can_allocate` (lines 222-233), with the source's
exact comparisons: `Later` iff `num_gpu_blocks > num_free + num_required`,
else `Impossible` iff `num_gpu_blocks < num_required`, else `Ok`. -/
def BlockEngine.can_allocate (e : BlockEngine) (g : SequenceGroup) :
    AllocStatus :=
  let num_required_blocks := g.total_logical_token_blocks
  let num_free_gpu_blocks := e.gpu_free.length
  if e.num_gpu_blocks > num_free_gpu_blocks + num_required_blocks then
    AllocStatus.Later
  else if e.num_gpu_blocks < num_required_blocks then
    AllocStatus.Impossible
  else
    AllocStatus.Ok

/-- The allocation loop of `BlockEngine::allocate` (lines 236-239): one
GPU-pool allocation per logical block, pushed onto the table in order. -/
def allocateBlocks : BlockEngine → Nat → List BlockRef →
    Option (BlockEngine × List BlockRef)
  | e, 0, acc => some (e, acc)
  | e, n + 1, acc =>
    match Allocator.allocate e Pool.gpu with
    | none => none
    | some (e1, r) => allocateBlocks e1 n (acc ++ [r])

/-- Models `BlockEngine::allocate` (lines 235-243): allocate one GPU block
per logical block of the group, then insert a clone of that one table for
every member sequence. -/
def BlockEngine.allocate (e : BlockEngine) (g : SequenceGroup) :
    Option BlockEngine :=
  match allocateBlocks e g.total_logical_token_blocks [] with
  | none => none
  | some (e1, block_table) =>
    some { e1 with
      block_tables :=
        g.seqs.foldl (fun acc s => tablesInsert acc s.seq_id block_table)
          e1.block_tables }

/-- The per-table loop of `BlockEngine::free_sequence` (lines 258-264):
each block is released through the pool matching its `is_gpu` tag. -/
def freeTableBlocks : BlockEngine → List BlockRef → Option BlockEngine
  | e, [] => some e
  | e, r :: rest =>
    match e.blocks[r]? with
    | none => none
    | some b =>
      match Allocator.free_block e (if b.is_gpu then Pool.gpu else Pool.cpu) r with
      | none => none
      | some e1 => freeTableBlocks e1 rest

/-- Models `BlockEngine::free_sequence` (lines 251-267): release one
reference per table slot, then remove the sequence's entry.  A missing
entry is the `unwrap` panic. -/
def BlockEngine.free_sequence (e : BlockEngine) (s : Sequence) :
    Option BlockEngine :=
  match tablesGet e.block_tables s.seq_id with
  | none => none
  | some tbl =>
    match freeTableBlocks e tbl with
    | none => none
    | some e1 =>
      some { e1 with block_tables := tablesRemove e1.block_tables s.seq_id }

/-- Models `BlockEngine::append_token_slot_to_seq` (lines 316-346).
The source's match arms on the growth need (1, 0, catch-all) are the
disjoint branches of the if chain; the `assert!(last_block.is_gpu)` and
the `unreachable!()` arm are `none`.
In the copy-on-write arm the source allocates the new block first, then
frees one reference to the old last block, reads both ids, and replaces
the table's last entry in place. -/
def BlockEngine.append_token_slot_to_seq (e : BlockEngine) (s : Sequence) :
    Option (BlockEngine × Option (Nat × Nat)) :=
  match tablesGet e.block_tables s.seq_id with
  | none => none
  | some table =>
    if s.blocks_to_add_new_tok = 1 then
      match Allocator.allocate e Pool.gpu with
      | none => none
      | some (e1, r) =>
        some ({ e1 with
          block_tables := tablesInsert e1.block_tables s.seq_id (table ++ [r]) }, none)
    else if s.blocks_to_add_new_tok = 0 then
      match table.getLast? with
      | none => none
      | some lastRef =>
        match e.blocks[lastRef]? with
        | none => none
        | some lastB =>
          if lastB.is_gpu then
            if lastB.refcount == 1 then some (e, none)
            else
              match Allocator.allocate e Pool.gpu with
              | none => none
              | some (e1, newRef) =>
                match Allocator.free_block e1 Pool.gpu lastRef with
                | none => none
                | some e2 =>
                  some ({ e2 with
                    block_tables :=
                      tablesInsert e2.block_tables s.seq_id
                        (table.dropLast ++ [newRef]) },
                    some (blockIdOf e2 lastRef, blockIdOf e2 newRef))
          else none
    else none

/-- One entry of the per-swap deduplication map
`HashMap<Arc<PhysicalTokenBlock>, Arc<PhysicalTokenBlock>>`
(lines 283-284 and 362-363).  A Rust hash map caches each key's hash at
insertion time; since the map's Hash and Eq read the block state behind
the Arc (derived over id, size, refcount, tier), we record the key's
state at insertion (`snapshot`) next to the stored key handle and the
mapped destination handle. -/
structure MapEntry where
  snapshot : PhysicalTokenBlock
  keyRef : BlockRef
  valRef : BlockRef
deriving DecidableEq, Repr

/-- HashMap lookup (`contains_key` / `get`) on the deduplication map: a
probe handle finds an entry iff its current block state hashes like the
state cached at insertion (hashing treated as injective on block states)
and the stored key's current state equals the probe's current state
(the derived Eq). -/
def mappingLookup (e : BlockEngine) (m : List MapEntry) (r : BlockRef) :
    Option BlockRef :=
  (m.find? (fun ent =>
      (e.blocks[r]? == some ent.snapshot)
      && (e.blocks[ent.keyRef]? == e.blocks[r]?))).map (fun ent => ent.valRef)

/-- HashMap::insert on the deduplication map: replace the value on a hit
(same criterion as `mappingLookup`), else add an entry recording the
key's current state as its cached hash. -/
def mappingInsert (e : BlockEngine) (m : List MapEntry) (r v : BlockRef) :
    List MapEntry :=
  match e.blocks[r]? with
  | none => m
  | some st =>
    if (mappingLookup e m r).isSome then
      m.map (fun ent =>
        if (e.blocks[r]? == some ent.snapshot)
            && (e.blocks[ent.keyRef]? == e.blocks[r]?) then
          { ent with valRef := v }
        else ent)
    else m ++ [{ snapshot := st, keyRef := r, valRef := v }]

/-- The inner per-block loop of `BlockEngine::swap_out` (lines 289-304):
translate each GPU block of one table to a CPU block.  On a map hit the
destination's refcount is incremented; on a miss a CPU block is
allocated and the pair is inserted.  Either way the source block is then
freed through the GPU pool. -/
def swapOutTable : BlockEngine → List MapEntry → List BlockRef →
    List BlockRef → Option (BlockEngine × List MapEntry × List BlockRef)
  | e, m, newtbl, [] => some (e, m, newtbl)
  | e, m, newtbl, srcRef :: rest =>
    match mappingLookup e m srcRef with
    | some dstRef =>
      match e.blocks[dstRef]? with
      | none => none
      | some db =>
        let e1 : BlockEngine :=
          { e with blocks := e.blocks.set dstRef { db with refcount := db.refcount + 1 } }
        match Allocator.free_block e1 Pool.gpu srcRef with
        | none => none
        | some e2 => swapOutTable e2 m (newtbl ++ [dstRef]) rest
    | none =>
      match Allocator.allocate e Pool.cpu with
      | none => none
      | some (e1, dstRef) =>
        let m1 := mappingInsert e1 m srcRef dstRef
        match Allocator.free_block e1 Pool.gpu srcRef with
        | none => none
        | some e2 => swapOutTable e2 m1 (newtbl ++ [dstRef]) rest

/-- The per-sequence loop of `BlockEngine::swap_out` (lines 285-306):
translate each member sequence's table and replace its map entry. -/
def swapOutSeqs : BlockEngine → List MapEntry → List Sequence →
    Option (BlockEngine × List MapEntry)
  | e, m, [] => some (e, m)
  | e, m, s :: rest =>
    match tablesGet e.block_tables s.seq_id with
    | none => none
    | some tbl =>
      match swapOutTable e m [] tbl with
      | none => none
      | some (e1, m1, newtbl) =>
        swapOutSeqs
          { e1 with block_tables := tablesInsert e1.block_tables s.seq_id newtbl }
          m1 rest

/-- Models `BlockEngine::swap_out` (lines 281-312); the returned id map
reads both handles' current `block_id` fields (lines 308-311). -/
def BlockEngine.swap_out (e : BlockEngine) (g : SequenceGroup) :
    Option (BlockEngine × List (Nat × Nat)) :=
  match swapOutSeqs e [] g.seqs with
  | none => none
  | some (e1, m1) =>
    some (e1, m1.map (fun ent => (blockIdOf e1 ent.keyRef, blockIdOf e1 ent.valRef)))

/-- The inner per-block loop of `BlockEngine::swap_in` (lines 368-383).
Faithful to the source, the miss branch allocates the destination from
the CPU pool (`self.cpu_allocator.allocate()`, line 377) and the source
block is freed through the GPU pool
(`self.gpu_allocator.free_block(cpu_block.clone())`, line 382). -/
def swapInTable : BlockEngine → List MapEntry → List BlockRef →
    List BlockRef → Option (BlockEngine × List MapEntry × List BlockRef)
  | e, m, newtbl, [] => some (e, m, newtbl)
  | e, m, newtbl, srcRef :: rest =>
    match mappingLookup e m srcRef with
    | some dstRef =>
      match e.blocks[dstRef]? with
      | none => none
      | some db =>
        let e1 : BlockEngine :=
          { e with blocks := e.blocks.set dstRef { db with refcount := db.refcount + 1 } }
        match Allocator.free_block e1 Pool.gpu srcRef with
        | none => none
        | some e2 => swapInTable e2 m (newtbl ++ [dstRef]) rest
    | none =>
      match Allocator.allocate e Pool.cpu with
      | none => none
      | some (e1, dstRef) =>
        let m1 := mappingInsert e1 m srcRef dstRef
        match Allocator.free_block e1 Pool.gpu srcRef with
        | none => none
        | some e2 => swapInTable e2 m1 (newtbl ++ [dstRef]) rest

/-- The per-sequence loop of `BlockEngine::swap_in` (lines 364-385). -/
def swapInSeqs : BlockEngine → List MapEntry → List Sequence →
    Option (BlockEngine × List MapEntry)
  | e, m, [] => some (e, m)
  | e, m, s :: rest =>
    match tablesGet e.block_tables s.seq_id with
    | none => none
    | some tbl =>
      match swapInTable e m [] tbl with
      | none => none
      | some (e1, m1, newtbl) =>
        swapInSeqs
          { e1 with block_tables := tablesInsert e1.block_tables s.seq_id newtbl }
          m1 rest

/-- Models `BlockEngine::swap_in` (lines 360-391). -/
def BlockEngine.swap_in (e : BlockEngine) (g : SequenceGroup) :
    Option (BlockEngine × List (Nat × Nat)) :=
  match swapInSeqs e [] g.seqs with
  | none => none
  | some (e1, m1) =>
    some (e1, m1.map (fun ent => (blockIdOf e1 ent.keyRef, blockIdOf e1 ent.valRef)))

/-- Models `InputMetadata` (input_metadata.rs lines 5-13).  The tensor
type and the attention-bias trait object are opaque to this constructor
and are abstracted as type parameters `T` and `A`. -/
structure InputMetadata (T A : Type) where
  prompt_lens : List Nat
  max_context_len : Option Nat
  block_tables : Option T
  context_lens : Option T
  slot_mappinng : T
  attn_bias : Option A
  is_prompt : Bool

/-- Models `InputMetadata::new` (input_metadata.rs lines 21-38). -/
def InputMetadata.new (T A : Type) (prompt_lens : List Nat)
    (max_context_len : Option Nat) (block_tables context_lens : Option T)
    (slot_mappinng : T) : InputMetadata T A :=
  { prompt_lens := prompt_lens
    max_context_len := max_context_len
    block_tables := block_tables
    context_lens := context_lens
    slot_mappinng := slot_mappinng
    attn_bias := none
    is_prompt := !prompt_lens.isEmpty }

/-- Claim C1 (counter-evidence, code bug).  The claim says the refcount of
every physical block always equals the number of live (sequence-id,
table-slot) references, that after allocate for a group of N sequences
each block's refcount accounts for every referencing table, and that
freeing every referencing sequence returns the block to its free list
with no fatal double free.  On a fresh engine (2 GPU blocks) and a group
of two sequences needing one logical block, allocate gives both
sequences a table referencing block 1, yet its refcount is 1, not 2;
freeing sequence 0 succeeds and freeing sequence 1 then hits the fatal
double-free panic (the inner result none). -/
theorem allocate_group_refcount_undercount_double_free :
    ((BlockEngine.new 4 2 2).allocate ⟨[⟨0, 0⟩, ⟨1, 0⟩], 1⟩).map (fun e1 =>
      (tablesGet e1.block_tables 0, tablesGet e1.block_tables 1,
       e1.blocks[1]?,
       (e1.free_sequence ⟨0, 0⟩).map (fun e2 => e2.free_sequence ⟨1, 0⟩)))
    = some (some [1], some [1],
        some { block_id := 1, block_size := 4, refcount := 1, is_gpu := true },
        some none) := by
  decide

/-- Claim C2 (counter-evidence, code bug).  The claim says can_allocate
returns Ok whenever the required block count is at most the number of
currently free fast-tier blocks (and Later only when required exceeds
the free count without exceeding capacity).  On a 4-block engine with 2
blocks in use (2 free), a group requiring 1 block gets Later from the
source's comparison (4 greater than 2 + 1), though 1 is at most 2. -/
theorem can_allocate_later_despite_enough_free :
    ((BlockEngine.new 4 4 0).allocate ⟨[⟨0, 0⟩], 2⟩).map (fun e1 =>
      (e1.can_allocate ⟨[⟨1, 0⟩], 1⟩, e1.gpu_free.length))
    = some (AllocStatus.Later, 2) := by
  decide

/-- Claim C3 (counter-evidence, code bug).  The claim says a can_allocate
answer of Ok guarantees the immediately following allocate does not
exhaust the fast-tier pool.  On a 4-block engine with 3 blocks in use
(1 free), a group requiring 3 blocks gets Ok (4 is not greater than
1 + 3 and not less than 3), yet allocate pops from an empty free list
and dies (none). -/
theorem can_allocate_ok_then_allocate_exhausts :
    ((BlockEngine.new 4 4 0).allocate ⟨[⟨0, 0⟩], 3⟩).map (fun e1 =>
      (e1.can_allocate ⟨[⟨1, 0⟩], 3⟩, e1.allocate ⟨[⟨1, 0⟩], 3⟩))
    = some (AllocStatus.Ok, none) := by
  decide

/-- Claim C4 (counter-evidence, code bug).  The claim says swap_in
mirrors swap_out with tiers exchanged: destinations from the fast-tier
(GPU) pool, sources released into the slow-tier (CPU) pool, tables
replaced by fast-tier blocks.  Run: 1 GPU block (heap reference 0), 2
CPU blocks (references 1, 2); allocate one block for sequence 0, swap it
out (table becomes the CPU block 2), then swap back in.  Afterwards the
table holds reference 1 — the second CPU-pool block, allocated by
swap_in from the CPU pool — the GPU free list is [0, 2] (the CPU source
block 2 was released into the GPU pool), and the CPU free list is empty,
while the GPU pool's own block 0 was never allocated. -/
theorem swap_in_wrong_tier_pools :
    ((((BlockEngine.new 4 1 2).allocate ⟨[⟨0, 0⟩], 1⟩).bind (fun e1 =>
        (e1.swap_out ⟨[⟨0, 0⟩], 1⟩).map Prod.fst)).bind
      (fun e2 => (e2.swap_in ⟨[⟨0, 0⟩], 1⟩).map (fun p =>
        (tablesGet p.1.block_tables 0, p.1.gpu_free, p.1.cpu_free))))
    = some (some [1], [0, 2], []) := by
  decide

/-- Claim C5 (counter-evidence, code bug).  The claim says that within
one swap_out call two table occurrences of the same source block are
translated to the same destination block, the dedup lookup recognizing a
previously translated source on every later occurrence.  State (the
spec's own invariant state): one GPU block, heap reference 0, refcount 2,
referenced by the tables of sequences 0 and 1; CPU pool free [1, 2].
Swapping the group out translates sequence 0's occurrence to CPU block
reference 2, then frees the source once (refcount 2 to 1), so sequence
1's lookup — hashing the source's current state against the state cached
at insertion — misses, and a second CPU block (reference 1) is
allocated: the two tables end up with different destination blocks. -/
theorem swap_out_dedup_miss_on_shared_block :
    ((⟨4, 1, 2,
       [⟨0, 4, 2, true⟩, ⟨0, 4, 0, true⟩, ⟨1, 4, 0, true⟩],
       [], [1, 2], [(0, [0]), (1, [0])]⟩ : BlockEngine).swap_out
        ⟨[⟨0, 0⟩, ⟨1, 0⟩], 1⟩).map (fun p =>
      (tablesGet p.1.block_tables 0, tablesGet p.1.block_tables 1))
    = some (some [2], some [1]) := by
  decide

/-- Claim C6 (counter-evidence, code bug).  The claim says every block
created in the slow-tier (CPU) pool carries the slow-tier tag.  In a
fresh engine with one block per tier, the CPU pool's sole block (heap
reference 1, as the CPU free list shows) is created with is_gpu true
(block_engine.rs line 168). -/
theorem cpu_pool_blocks_tagged_fast_tier :
    (BlockEngine.new 4 1 1).blocks[1]?
      = some { block_id := 0, block_size := 4, refcount := 0, is_gpu := true }
    ∧ (BlockEngine.new 4 1 1).cpu_free = [1] := by
  constructor
  · decide
  · decide

/-- Claim C10.  InputMetadata.new sets is_prompt exactly when the given
prompt_lens list is non-empty, sets attn_bias to none, and passes every
other argument through unchanged. -/
theorem inputMetadata_new_spec (T A : Type) (pl : List Nat)
    (mcl : Option Nat) (bt cl : Option T) (sm : T) :
    ((InputMetadata.new T A pl mcl bt cl sm).is_prompt = true ↔ pl ≠ [])
    ∧ (InputMetadata.new T A pl mcl bt cl sm).attn_bias = none
    ∧ (InputMetadata.new T A pl mcl bt cl sm).prompt_lens = pl
    ∧ (InputMetadata.new T A pl mcl bt cl sm).max_context_len = mcl
    ∧ (InputMetadata.new T A pl mcl bt cl sm).block_tables = bt
    ∧ (InputMetadata.new T A pl mcl bt cl sm).context_lens = cl
    ∧ (InputMetadata.new T A pl mcl bt cl sm).slot_mappinng = sm := by
  refine ⟨?_, rfl, rfl, rfl, rfl, rfl, rfl⟩
  simp [InputMetadata.new]

theorem blocks_setFreeList (e : BlockEngine) (p : Pool) (l : List BlockRef) :
    (setFreeList e p l).blocks = e.blocks := by
  cases p <;> rfl

theorem tables_setFreeList (e : BlockEngine) (p : Pool) (l : List BlockRef) :
    (setFreeList e p l).block_tables = e.block_tables := by
  cases p <;> rfl

theorem freeListOf_setFreeList_self (e : BlockEngine) (p : Pool)
    (l : List BlockRef) : freeListOf (setFreeList e p l) p = l := by
  cases p <;> rfl

theorem freeListOf_setFreeList_ne (e : BlockEngine) (p q : Pool)
    (l : List BlockRef) (h : q ≠ p) :
    freeListOf (setFreeList e p l) q = freeListOf e q := by
  cases p <;> cases q <;> first | rfl | exact absurd rfl h

theorem freeListOf_set_blocks (e : BlockEngine) (p : Pool)
    (bs : List PhysicalTokenBlock) :
    freeListOf { e with blocks := bs } p = freeListOf e p := by
  cases p <;> rfl

/-- Claim C8.  With a valid block reference, the pool free operation
aborts (none, the double-free panic) exactly when the refcount is 0 on
entry; otherwise it decrements the refcount by exactly 1 and pushes the
block onto this pool's free list exactly when the refcount reached 0,
touching neither the other pool's free list nor the block tables. -/
theorem free_block_spec (e : BlockEngine) (p : Pool) (r : BlockRef)
    (b : PhysicalTokenBlock) (hb : e.blocks[r]? = some b) :
    (Allocator.free_block e p r = none ↔ b.refcount = 0)
    ∧ (b.refcount ≠ 0 →
        ∃ e1, Allocator.free_block e p r = some e1
          ∧ e1.blocks[r]? = some ⟨b.block_id, b.block_size, b.refcount - 1, b.is_gpu⟩
          ∧ freeListOf e1 p =
              (if b.refcount = 1 then freeListOf e p ++ [r] else freeListOf e p)
          ∧ (∀ q, q ≠ p → freeListOf e1 q = freeListOf e q)
          ∧ e1.block_tables = e.block_tables) := by
  have hr : r < e.blocks.length := (List.getElem?_eq_some.mp hb).1
  constructor
  · by_cases h0 : b.refcount = 0
    · simp [Allocator.free_block, hb, h0]
    · have hb0 : (b.refcount == 0) = false := by
        simp only [beq_eq_false_iff_ne]; exact h0
      simp only [Allocator.free_block, hb, hb0, Bool.false_eq_true, if_false]
      constructor
      · intro h
        split at h <;> simp_all
      · intro h
        exact absurd h h0
  · intro h0
    have hb0 : (b.refcount == 0) = false := by
      simp only [beq_eq_false_iff_ne]; exact h0
    by_cases h1 : b.refcount = 1
    · refine ⟨setFreeList
          { e with blocks := e.blocks.set r ⟨b.block_id, b.block_size, b.refcount - 1, b.is_gpu⟩ } p
          (freeListOf { e with blocks := e.blocks.set r ⟨b.block_id, b.block_size, b.refcount - 1, b.is_gpu⟩ } p ++ [r]),
        ?_, ?_, ?_, ?_, ?_⟩
      · simp [Allocator.free_block, hb, hb0, h1]
      · rw [blocks_setFreeList]
        simp only []
        rw [List.getElem?_set_eq_of_lt _ hr]
      · rw [freeListOf_setFreeList_self, freeListOf_set_blocks, if_pos h1]
      · intro q hq
        rw [freeListOf_setFreeList_ne _ _ _ _ hq, freeListOf_set_blocks]
      · rw [tables_setFreeList]
    · have h1' : (b.refcount - 1 == 0) = false := by
        simp only [beq_eq_false_iff_ne]; omega
      refine ⟨{ e with blocks := e.blocks.set r ⟨b.block_id, b.block_size, b.refcount - 1, b.is_gpu⟩ },
        ?_, ?_, ?_, ?_, ?_⟩
      · simp [Allocator.free_block, hb, hb0, h1']
      · simp only []
        rw [List.getElem?_set_eq_of_lt _ hr]
      · rw [freeListOf_set_blocks, if_neg h1]
      · intro q hq
        rw [freeListOf_set_blocks]
      · rfl

/-- Witness for claim C8's theorem: the engine with one block of
refcount 2 satisfies the hypothesis, and free_block decrements the
refcount to 1 without pushing the block to any free list. -/
theorem free_block_spec_witness :
    (⟨4, 1, 0, [⟨0, 4, 2, true⟩], [], [], []⟩ : BlockEngine).blocks[0]? = some ⟨0, 4, 2, true⟩
    ∧ ((Allocator.free_block ⟨4, 1, 0, [⟨0, 4, 2, true⟩], [], [], []⟩ Pool.gpu 0 = none
          ↔ (2 : Nat) = 0)
       ∧ ((2 : Nat) ≠ 0 →
          ∃ e1, Allocator.free_block ⟨4, 1, 0, [⟨0, 4, 2, true⟩], [], [], []⟩ Pool.gpu 0 = some e1
            ∧ e1.blocks[0]? = some ⟨0, 4, 2 - 1, true⟩
            ∧ freeListOf e1 Pool.gpu =
                (if (2 : Nat) = 1 then
                  freeListOf ⟨4, 1, 0, [⟨0, 4, 2, true⟩], [], [], []⟩ Pool.gpu ++ [0]
                 else freeListOf ⟨4, 1, 0, [⟨0, 4, 2, true⟩], [], [], []⟩ Pool.gpu)
            ∧ (∀ q, q ≠ Pool.gpu →
                freeListOf e1 q = freeListOf ⟨4, 1, 0, [⟨0, 4, 2, true⟩], [], [], []⟩ q)
            ∧ e1.block_tables = ([] : List (Nat × List BlockRef)))) :=
  ⟨by decide,
   free_block_spec ⟨4, 1, 0, [⟨0, 4, 2, true⟩], [], [], []⟩ Pool.gpu 0 ⟨0, 4, 2, true⟩ (by decide)⟩

/-- Claim C9.  Under the invariant that the token count is at most the
capacity, append_token_id fails (the assert panic, none) exactly when
the block is full; when not full it writes the token at the current end
and increases the token count by exactly 1; every successful append
preserves the invariant; and append_tokens is repeated single appends in
order (its two recursion equations). -/
theorem append_token_id_spec (b : LogicalTokenBlock) (t : Nat)
    (hinv : b.num_tokens ≤ b.block_size) :
    (b.append_token_id t = none ↔ b.num_tokens = b.block_size)
    ∧ (b.num_tokens < b.block_size →
        b.append_token_id t = some
          { tokens := b.tokens.set b.num_tokens t
            block_id := b.block_id
            block_size := b.block_size
            num_tokens := b.num_tokens + 1 })
    ∧ (∀ b1, b.append_token_id t = some b1 →
        b1.num_tokens ≤ b1.block_size ∧ b1.num_tokens = b.num_tokens + 1)
    ∧ b.append_tokens [] = some b
    ∧ (∀ u ts, b.append_tokens (u :: ts)
        = (b.append_token_id u).bind (fun b1 => b1.append_tokens ts)) := by
  refine ⟨?_, ?_, ?_, rfl, ?_⟩
  · by_cases hf : b.num_tokens = b.block_size
    · simp [LogicalTokenBlock.append_token_id, LogicalTokenBlock.is_full, hf]
    · have : (b.num_tokens == b.block_size) = false := by
        simp only [beq_eq_false_iff_ne]; exact hf
      simp [LogicalTokenBlock.append_token_id, LogicalTokenBlock.is_full, this, hf]
  · intro hlt
    have : (b.num_tokens == b.block_size) = false := by
      simp only [beq_eq_false_iff_ne]; omega
    simp [LogicalTokenBlock.append_token_id, LogicalTokenBlock.is_full, this]
  · intro b1 h1
    by_cases hf : (b.num_tokens == b.block_size) = true
    · simp [LogicalTokenBlock.append_token_id, LogicalTokenBlock.is_full, hf] at h1
    · simp only [Bool.not_eq_true] at hf
      have hne : b.num_tokens ≠ b.block_size := by
        simpa only [beq_eq_false_iff_ne] using hf
      simp only [LogicalTokenBlock.append_token_id, LogicalTokenBlock.is_full, hf,
        Bool.false_eq_true, if_false, Option.some.injEq] at h1
      rw [← h1]
      constructor
      · simp only []
        omega
      · rfl
  · intro u ts
    cases h : b.append_token_id u <;>
      simp [LogicalTokenBlock.append_tokens, h]

/-- Witness for claim C9's theorem: a block of capacity 2 holding one
token satisfies the invariant hypothesis, and appending writes at slot 1
and raises the count to 2. -/
theorem append_token_id_spec_witness :
    (⟨[5, 0], 0, 2, 1⟩ : LogicalTokenBlock).num_tokens
      ≤ (⟨[5, 0], 0, 2, 1⟩ : LogicalTokenBlock).block_size
    ∧ (((⟨[5, 0], 0, 2, 1⟩ : LogicalTokenBlock).append_token_id 7 = none
          ↔ (1 : Nat) = 2)
       ∧ ((1 : Nat) < 2 →
          (⟨[5, 0], 0, 2, 1⟩ : LogicalTokenBlock).append_token_id 7 = some
            { tokens := [5, 0].set 1 7
              block_id := 0
              block_size := 2
              num_tokens := 1 + 1 })
       ∧ (∀ b1, (⟨[5, 0], 0, 2, 1⟩ : LogicalTokenBlock).append_token_id 7 = some b1 →
            b1.num_tokens ≤ b1.block_size ∧ b1.num_tokens = 1 + 1)
       ∧ (⟨[5, 0], 0, 2, 1⟩ : LogicalTokenBlock).append_tokens [] = some ⟨[5, 0], 0, 2, 1⟩
       ∧ (∀ u ts, (⟨[5, 0], 0, 2, 1⟩ : LogicalTokenBlock).append_tokens (u :: ts)
            = ((⟨[5, 0], 0, 2, 1⟩ : LogicalTokenBlock).append_token_id u).bind
                (fun b1 => b1.append_tokens ts))) :=
  ⟨by decide, append_token_id_spec ⟨[5, 0], 0, 2, 1⟩ 7 (by decide)⟩


theorem tablesGet_tablesInsert_self (ts : List (Nat × List BlockRef))
    (k : Nat) (v : List BlockRef) :
    tablesGet (tablesInsert ts k v) k = some v := by
  induction ts with
  | nil => simp [tablesInsert, tablesGet]
  | cons p ts ih =>
    by_cases hp : p.1 = k
    · simp [tablesInsert, tablesGet, hp]
    · by_cases ha : ts.any (fun q => q.1 == k)
      · have h2 := ih
        simp only [tablesInsert, ha, if_true] at h2
        simp only [tablesInsert, List.any_cons, ha, Bool.or_true, if_true,
          List.map_cons]
        simp only [tablesGet, List.find?_cons] at h2 ⊢
        have hpb : (p.1 == k) = false := by simp [hp]
        simp only [hpb, Bool.false_eq_true, if_false]
        simpa [hpb, hp] using h2
      · have h2 := ih
        simp only [tablesInsert, ha, Bool.false_eq_true, if_false] at h2
        have hpb : (p.1 == k) = false := by simp [hp]
        simp only [tablesInsert, List.any_cons, ha, hpb, Bool.false_or,
          Bool.false_eq_true, if_false, List.cons_append]
        simp only [tablesGet, List.find?_cons] at h2 ⊢
        simp only [hpb]
        simpa [hpb, hp] using h2

theorem find?_map_insert (ts : List (Nat × List BlockRef)) (k k1 : Nat)
    (v : List BlockRef) (h : k1 ≠ k) :
    (ts.map (fun p => if p.1 == k then (k, v) else p)).find?
        (fun p => p.1 == k1)
      = ts.find? (fun p => p.1 == k1) := by
  induction ts with
  | nil => rfl
  | cons p ts ih =>
    by_cases hp : p.1 = k
    · have hpb : (p.1 == k) = true := by simp [hp]
      have hk1 : ((k : Nat) == k1) = false := by simp [Ne.symm h]
      have hp1 : (p.1 == k1) = false := by simp [hp, Ne.symm h]
      simp only [List.map_cons, hpb, if_true, List.find?_cons, hk1, hp1,
        Bool.false_eq_true, if_false]
      exact ih
    · have hpb : (p.1 == k) = false := by simp [hp]
      simp only [List.map_cons, hpb, Bool.false_eq_true, if_false,
        List.find?_cons]
      by_cases hp1 : (p.1 == k1) = true
      · simp only [hp1, if_true]
      · simp only [hp1, if_false]
        exact ih

theorem tablesGet_tablesInsert_ne (ts : List (Nat × List BlockRef))
    (k k1 : Nat) (v : List BlockRef) (h : k1 ≠ k) :
    tablesGet (tablesInsert ts k v) k1 = tablesGet ts k1 := by
  by_cases ha : ts.any (fun q => q.1 == k)
  · simp only [tablesInsert, ha, if_true, tablesGet]
    rw [find?_map_insert _ _ _ _ h]
  · simp only [tablesInsert, ha, Bool.false_eq_true, if_false, tablesGet]
    rw [List.find?_append]
    have : ([((k : Nat), v)].find? (fun p => p.1 == k1)) = none := by
      simp [Ne.symm h]
    rw [this]
    cases ts.find? (fun p => p.1 == k1) <;> rfl

/-- Claim C7.  For a sequence present in the engine's tables:
with growth need 0 and a last (fast-tier) block of refcount above 1
and a non-empty fast-tier free list, append_token_slot_to_seq performs
copy-on-write: it allocates exactly the one popped fast-tier block
(refcount 1), frees exactly one reference to the old shared block
(refcount down by exactly 1, block kept out of the free list), replaces
only the table's last entry by the new block, leaves other sequences'
tables unchanged, and returns the pair of old and new block ids; with
growth need 0 and last-block refcount 1 it returns none and changes
nothing; with growth need 1 it allocates one fast-tier block, appends it
to the table, and returns none. -/
theorem append_token_slot_cow_spec (e : BlockEngine) (s : Sequence)
    (tbl : List BlockRef) (htbl : tablesGet e.block_tables s.seq_id = some tbl) :
    (∀ lastRef lastB newRef nb rest,
        s.blocks_to_add_new_tok = 0 →
        tbl.getLast? = some lastRef →
        e.blocks[lastRef]? = some lastB →
        lastB.is_gpu = true →
        1 < lastB.refcount →
        popLast e.gpu_free = some (rest, newRef) →
        e.blocks[newRef]? = some nb →
        newRef ≠ lastRef →
        ∃ e1, e.append_token_slot_to_seq s
            = some (e1, some (lastB.block_id, nb.block_id))
          ∧ e1.gpu_free = e.gpu_free.dropLast
          ∧ e1.blocks[newRef]? = some ⟨nb.block_id, nb.block_size, 1, nb.is_gpu⟩
          ∧ e1.blocks[lastRef]?
              = some ⟨lastB.block_id, lastB.block_size, lastB.refcount - 1, lastB.is_gpu⟩
          ∧ (lastRef ∉ e.gpu_free → lastRef ∉ e1.gpu_free)
          ∧ tablesGet e1.block_tables s.seq_id = some (tbl.dropLast ++ [newRef])
          ∧ (∀ k, k ≠ s.seq_id →
              tablesGet e1.block_tables k = tablesGet e.block_tables k))
    ∧ (∀ lastRef lastB,
        s.blocks_to_add_new_tok = 0 →
        tbl.getLast? = some lastRef →
        e.blocks[lastRef]? = some lastB →
        lastB.is_gpu = true →
        lastB.refcount = 1 →
        e.append_token_slot_to_seq s = some (e, none))
    ∧ (∀ newRef nb rest,
        s.blocks_to_add_new_tok = 1 →
        popLast e.gpu_free = some (rest, newRef) →
        e.blocks[newRef]? = some nb →
        ∃ e1, e.append_token_slot_to_seq s = some (e1, none)
          ∧ e1.gpu_free = e.gpu_free.dropLast
          ∧ e1.blocks[newRef]? = some ⟨nb.block_id, nb.block_size, 1, nb.is_gpu⟩
          ∧ tablesGet e1.block_tables s.seq_id = some (tbl ++ [newRef])
          ∧ (∀ k, k ≠ s.seq_id →
              tablesGet e1.block_tables k = tablesGet e.block_tables k)) := by
  refine ⟨?_, ?_, ?_⟩
  · intro lastRef lastB newRef nb rest hg hlast hb hgpu hrc hpop hnb hne
    have hLlen : lastRef < e.blocks.length := (List.getElem?_eq_some.mp hb).1
    have hNlen : newRef < e.blocks.length := (List.getElem?_eq_some.mp hnb).1
    have hrest : e.gpu_free.dropLast = rest := by
      unfold popLast at hpop
      cases hL : e.gpu_free.getLast? with
      | none => rw [hL] at hpop; cases hpop
      | some x => rw [hL] at hpop; simp at hpop; exact hpop.1
    have hAlloc : Allocator.allocate e Pool.gpu
        = some ({ e with
            blocks := e.blocks.set newRef ⟨nb.block_id, nb.block_size, 1, nb.is_gpu⟩,
            gpu_free := rest }, newRef) := by
      simp only [Allocator.allocate, freeListOf, hpop, hnb, setFreeList]
    have hE1last : (e.blocks.set newRef
          ⟨nb.block_id, nb.block_size, 1, nb.is_gpu⟩)[lastRef]? = some lastB := by
      rw [List.getElem?_set_ne hne]; exact hb
    have h0 : (lastB.refcount == 0) = false := by
      simp only [beq_eq_false_iff_ne]; omega
    have h1 : (lastB.refcount - 1 == 0) = false := by
      simp only [beq_eq_false_iff_ne]; omega
    have hrc1 : (lastB.refcount == 1) = false := by
      simp only [beq_eq_false_iff_ne]; omega
    have hFree : Allocator.free_block
        { e with
          blocks := e.blocks.set newRef ⟨nb.block_id, nb.block_size, 1, nb.is_gpu⟩,
          gpu_free := rest } Pool.gpu lastRef
        = some { e with
            blocks := (e.blocks.set newRef ⟨nb.block_id, nb.block_size, 1, nb.is_gpu⟩).set
              lastRef ⟨lastB.block_id, lastB.block_size, lastB.refcount - 1, lastB.is_gpu⟩,
            gpu_free := rest } := by
      simp only [Allocator.free_block, hE1last, h0, Bool.false_eq_true, if_false, h1]
    have hid1 : blockIdOf
        { e with
          blocks := (e.blocks.set newRef ⟨nb.block_id, nb.block_size, 1, nb.is_gpu⟩).set
            lastRef ⟨lastB.block_id, lastB.block_size, lastB.refcount - 1, true⟩,
          gpu_free := rest } lastRef = lastB.block_id := by
      simp only [blockIdOf]
      rw [List.getElem?_set_eq_of_lt]
      · rfl
      · rw [List.length_set]; exact hLlen
    have hid2 : blockIdOf
        { e with
          blocks := (e.blocks.set newRef ⟨nb.block_id, nb.block_size, 1, nb.is_gpu⟩).set
            lastRef ⟨lastB.block_id, lastB.block_size, lastB.refcount - 1, true⟩,
          gpu_free := rest } newRef = nb.block_id := by
      simp only [blockIdOf]
      rw [List.getElem?_set_ne (Ne.symm hne), List.getElem?_set_eq_of_lt _ hNlen]
      rfl
    refine ⟨{ e with
        blocks := (e.blocks.set newRef ⟨nb.block_id, nb.block_size, 1, nb.is_gpu⟩).set
          lastRef ⟨lastB.block_id, lastB.block_size, lastB.refcount - 1, lastB.is_gpu⟩,
        gpu_free := rest,
        block_tables := tablesInsert e.block_tables s.seq_id (tbl.dropLast ++ [newRef]) },
      ?_, ?_, ?_, ?_, ?_, ?_, ?_⟩
    · simp only [BlockEngine.append_token_slot_to_seq, htbl, hg, hgpu, hlast, hb,
        hrc1, Bool.false_eq_true, if_false, if_true, hAlloc, hFree, hid1, hid2,
        Nat.zero_ne_one, ite_true, ite_false]
    · rw [hrest]
    · rw [List.getElem?_set_ne (Ne.symm hne), List.getElem?_set_eq_of_lt _ hNlen]
    · rw [List.getElem?_set_eq_of_lt]
      rw [List.length_set]; exact hLlen
    · intro hmem hmem2
      have hmem3 : lastRef ∈ rest := hmem2
      apply hmem
      have hmem4 : lastRef ∈ e.gpu_free.dropLast := by rw [hrest]; exact hmem3
      exact (List.dropLast_sublist e.gpu_free).mem hmem4
    · exact tablesGet_tablesInsert_self _ _ _
    · intro k hk
      exact tablesGet_tablesInsert_ne _ _ _ _ hk
  · intro lastRef lastB hg hlast hb hgpu hrc
    have hrc1 : (lastB.refcount == 1) = true := by simp [hrc]
    simp only [BlockEngine.append_token_slot_to_seq, htbl, hg, hlast, hb, hgpu,
      hrc1, if_true, Nat.zero_ne_one, ite_false, ite_true]
  · intro newRef nb rest hg hpop hnb
    have hNlen : newRef < e.blocks.length := (List.getElem?_eq_some.mp hnb).1
    have hrest : e.gpu_free.dropLast = rest := by
      unfold popLast at hpop
      cases hL : e.gpu_free.getLast? with
      | none => rw [hL] at hpop; cases hpop
      | some x => rw [hL] at hpop; simp at hpop; exact hpop.1
    have hAlloc : Allocator.allocate e Pool.gpu
        = some ({ e with
            blocks := e.blocks.set newRef ⟨nb.block_id, nb.block_size, 1, nb.is_gpu⟩,
            gpu_free := rest }, newRef) := by
      simp only [Allocator.allocate, freeListOf, hpop, hnb, setFreeList]
    refine ⟨{ e with
        blocks := e.blocks.set newRef ⟨nb.block_id, nb.block_size, 1, nb.is_gpu⟩,
        gpu_free := rest,
        block_tables := tablesInsert e.block_tables s.seq_id (tbl ++ [newRef]) },
      ?_, ?_, ?_, ?_, ?_⟩
    · simp only [BlockEngine.append_token_slot_to_seq, htbl, hg, if_true, hAlloc,
        ite_true]
    · rw [hrest]
    · rw [List.getElem?_set_eq_of_lt _ hNlen]
    · exact tablesGet_tablesInsert_self _ _ _
    · intro k hk
      exact tablesGet_tablesInsert_ne _ _ _ _ hk

/-- Witness for claim C7's theorem: all three cases exercised on
two-block engines — a shared last block (refcount 2) triggers
copy-on-write returning the id pair (0, 1), an exclusively owned last
block (refcount 1) changes nothing, and growth need 1 appends the newly
allocated block. -/
theorem append_token_slot_cow_spec_witness :
    tablesGet ([(0, [0])] : List (Nat × List BlockRef)) 0 = some [0]
    ∧ (∃ e1, (⟨4, 2, 0, [⟨0, 4, 2, true⟩, ⟨1, 4, 0, true⟩], [1], [], [(0, [0])]⟩ :
            BlockEngine).append_token_slot_to_seq ⟨0, 0⟩
          = some (e1, some (0, 1))
        ∧ e1.gpu_free = []
        ∧ e1.blocks[1]? = some ⟨1, 4, 1, true⟩
        ∧ e1.blocks[0]? = some ⟨0, 4, 1, true⟩
        ∧ ((0 : Nat) ∉ ([1] : List Nat) → (0 : Nat) ∉ e1.gpu_free)
        ∧ tablesGet e1.block_tables 0 = some [1]
        ∧ (∀ k, k ≠ 0 → tablesGet e1.block_tables k = tablesGet [(0, [0])] k))
    ∧ (⟨4, 2, 0, [⟨0, 4, 1, true⟩, ⟨1, 4, 0, true⟩], [1], [], [(0, [0])]⟩ :
          BlockEngine).append_token_slot_to_seq ⟨0, 0⟩
        = some (⟨4, 2, 0, [⟨0, 4, 1, true⟩, ⟨1, 4, 0, true⟩], [1], [], [(0, [0])]⟩, none)
    ∧ (∃ e1, (⟨4, 2, 0, [⟨0, 4, 1, true⟩, ⟨1, 4, 0, true⟩], [1], [], [(0, [0])]⟩ :
            BlockEngine).append_token_slot_to_seq ⟨0, 1⟩
          = some (e1, none)
        ∧ e1.gpu_free = []
        ∧ e1.blocks[1]? = some ⟨1, 4, 1, true⟩
        ∧ tablesGet e1.block_tables 0 = some [0, 1]
        ∧ (∀ k, k ≠ 0 → tablesGet e1.block_tables k = tablesGet [(0, [0])] k)) :=
  ⟨by decide,
   (append_token_slot_cow_spec
      ⟨4, 2, 0, [⟨0, 4, 2, true⟩, ⟨1, 4, 0, true⟩], [1], [], [(0, [0])]⟩ ⟨0, 0⟩ [0]
      (by decide)).1 0 ⟨0, 4, 2, true⟩ 1 ⟨1, 4, 0, true⟩ [] rfl (by decide) (by decide)
      (by decide) (by decide) (by decide) (by decide) (by decide),
   (append_token_slot_cow_spec
      ⟨4, 2, 0, [⟨0, 4, 1, true⟩, ⟨1, 4, 0, true⟩], [1], [], [(0, [0])]⟩ ⟨0, 0⟩ [0]
      (by decide)).2.1 0 ⟨0, 4, 1, true⟩ rfl (by decide) (by decide) (by decide) (by decide),
   (append_token_slot_cow_spec
      ⟨4, 2, 0, [⟨0, 4, 1, true⟩, ⟨1, 4, 0, true⟩], [1], [], [(0, [0])]⟩ ⟨0, 1⟩ [0]
      (by decide)).2.2 1 ⟨1, 4, 0, true⟩ [] rfl (by decide) (by decide)⟩
